import Mathlib

/-!
# Verification of `tchannel` `src/connection_base.js` (TChannelConnectionBase)

A shallow embedding of the connection-level core of the tchannel RPC
transport, translated from `src/connection_base.js`, together with proofs
of the specification's claims about it.

Modelling conventions:

* JS numbers that hold times, ids and TTLs are modelled as `Int`
  (all claim-relevant arithmetic on them is exact integer arithmetic);
  the jitter computation `getTimeoutDelay`, which genuinely performs
  fractional arithmetic (`fuzz / 2`, `Math.floor`, `Math.round`), is
  modelled over `Rat`.
* The operation tables `inOps` / `outOps` are JS objects used as maps
  from id to operation record.  They are modelled as association lists
  `List (Int × α)`; `tblGet`, `tblSet`, `tblDel` mirror JS property
  read, property assignment (overwrite if the key exists, append
  otherwise) and `delete`.  JS object keys are unique by construction,
  which in this model is the explicit `Nodup` hypothesis on the key list.
* JS object identity (`self.inOps[id] !== op`, "this exact record") is
  modelled by a `uid : Nat` field stamped from a `nextUid` counter: two
  records are "the same object" iff their uids agree.
* Observable effects (event emissions to requests, connection-level
  `error` / `timedOut` notifications, logger calls) are returned as an
  explicit list of `Ev` values, in program order.
* Each sweep runs with a single value of `timers.now()`; the sweep is a
  synchronous loop, so all its reads of the clock are modelled by the
  one `now` argument.
* The sweep timer handle is modelled by `timer : Bool` — `true` iff a
  sweep is currently scheduled.  `startTimeoutTimer` sets it,
  `clearTimeoutTimer` clears it, and a timer firing clears it before
  `onTimeoutCheck` runs (the handle has fired and is stale; the code
  never reads it afterwards except in `clearTimeoutTimer`).
-/

/-- Constant `DEFAULT_OUTGOING_REQ_TIMEOUT` from connection_base.js line 29. -/
def DEFAULT_OUTGOING_REQ_TIMEOUT : Int := 2000

/-- Error values crossing this core's boundary.  The concrete error
constructors live in the external `./errors` module (not part of this
repository's source); modelled from the spec: Socket-Closed carries kind
`tchannel.socket-closed`, Timeout carries id/start/elapsed/timeout,
Response-Already-Started is the protocol-usage fault thrown by
`buildResponse`, and `unknownReset` is the plain
`new Error('unknown connection reset')` fallback, which has no `type`
property. -/
inductive Err where
  | socketClosed (reason : String)
  | timeoutErr (id start elapsed timeout : Int)
  | responseAlreadyStarted
  | unknownReset
  | other (ty : Option String) (msg : String)
deriving DecidableEq, Repr

/-- The JS `err.type` property (`none` models `undefined`, as on a plain
`Error`). Modelled from the spec: the errors module gives each typed error
a `type` string; only the `tchannel.socket-closed` value is compared
against in connection_base.js. -/
def Err.jsType : Err → Option String
  | .socketClosed _ => some "tchannel.socket-closed"
  | .timeoutErr _ _ _ _ => some "tchannel.timeout"
  | .responseAlreadyStarted => some "tchannel.response-already-started"
  | .unknownReset => none
  | .other ty _ => ty

/-- An outgoing request object, as far as this core reads it: the id the
request builder assigned, the TTL stamped by `connBaseRequest`, and a
`uid` modelling JS object identity / the request's own error channel. -/
structure OutReq where
  uid : Nat
  id : Int
  ttl : Int
deriving DecidableEq, Repr

/-- An incoming (decoded) request object: id and TTL travel with it. -/
structure InReq where
  uid : Nat
  id : Int
  ttl : Int
deriving DecidableEq, Repr

/-- Record `TChannelClientOp` (from the external `./client_op` module, modelled
from the spec: an outgoing-operation record pairing the request with its
start time and a `timedOut` flag that `new TChannelClientOp(req, now)`
initialises to false). -/
structure TChannelClientOp where
  req : OutReq
  start : Int
  timedOut : Bool
deriving DecidableEq, Repr

/-- Record `TChannelServerOp` (from the external `./server_op` module, modelled
from the spec: an incoming-operation record pairing the request with its
start time).  `uid` models the record's JS object identity, used by the
`self.inOps[id] !== op` check in `opDone`. -/
structure TChannelServerOp where
  uid : Nat
  req : InReq
  start : Int
deriving DecidableEq, Repr

/-- Observable events: notifications emitted by the connection, error
deliveries to individual requests (`req.emit('error', e)`), and logger
calls. -/
inductive Ev where
  | timedOut
  | errorNotif (e : Err)
  | reqError (uid : Nat) (e : Err)
  | logWarn (msg : String)
  | logInfo (msg : String)
deriving DecidableEq, Repr

/-- Closure state of one `handleCallRequest` call: the operation id, the
identity of the op record the closure captured, and the `done` flag of
its `opDone` callback. -/
structure InCtx where
  id : Int
  uid : Nat
  done : Bool
deriving DecidableEq, Repr

/-- Mutable state of one `TChannelConnectionBase`. -/
structure ConnState where
  inOps : List (Int × TChannelServerOp)
  outOps : List (Int × TChannelClientOp)
  pendingIn : Int
  pendingOut : Int
  lastTimeoutTime : Int
  closing : Bool
  timer : Bool
  ctxs : List InCtx
  nextUid : Nat
deriving DecidableEq, Repr

/-- State of a fresh connection (constructor, lines 34–60): empty
tables, zero counters, `lastTimeoutTime = 0`, `closing = false`, and the
sweep timer armed by `startTimeoutTimer`. -/
def initConn : ConnState :=
  { inOps := [], outOps := [], pendingIn := 0, pendingOut := 0,
    lastTimeoutTime := 0, closing := false, timer := true,
    ctxs := [], nextUid := 0 }

/-! ## Association-list model of the JS object tables -/

/-- JS property read `tbl[id]`: `none` models `undefined`. -/
def tblGet {α : Type} (id : Int) : List (Int × α) → Option α
  | [] => none
  | (k, v) :: rest => if k = id then some v else tblGet id rest

/-- JS property assignment `tbl[id] = v`: overwrites an existing key,
otherwise adds a new one. -/
def tblSet {α : Type} (id : Int) (v : α) : List (Int × α) → List (Int × α)
  | [] => [(id, v)]
  | (k, w) :: rest => if k = id then (id, v) :: rest else (k, w) :: tblSet id v rest

/-- JS `delete tbl[id]`: removes the key. -/
def tblDel {α : Type} (id : Int) (l : List (Int × α)) : List (Int × α) :=
  l.filter (fun e => e.1 != id)

/-- The key list of a table. -/
def tblKeys {α : Type} (l : List (Int × α)) : List Int := l.map Prod.fst

/-! ## getTimeoutDelay (lines 71–76), over exact rationals -/

/-- JS `Math.floor`. -/
def jsFloor (x : Rat) : Int := ⌊x⌋

/-- JS `Math.round` (round half toward positive infinity). -/
def jsRound (x : Rat) : Int := ⌊x + 1/2⌋

/-- Function `getTimeoutDelay` (lines 71–76):
`base + Math.round(Math.floor(random() * fuzz) - fuzz / 2)`. -/
def getTimeoutDelay (base fuzz r : Rat) : Rat :=
  base + ((jsRound ((jsFloor (r * fuzz) : Int) - fuzz / 2) : Int) : Rat)

/-! ## connBaseRequest TTL defaulting (line 261) -/

/-- The TTL stamped on an outgoing request:
`options.ttl = options.timeout || DEFAULT_OUTGOING_REQ_TIMEOUT`.
`none` models an absent `options.timeout`; a present `0` is falsy in JS,
so both fall back to the default. -/
def requestTtl (timeout : Option Int) : Int :=
  match timeout with
  | some t => if t ≠ 0 then t else DEFAULT_OUTGOING_REQ_TIMEOUT
  | none => DEFAULT_OUTGOING_REQ_TIMEOUT

/-! ## buildResponse guard (lines 302–313) -/

/-- Lifecycle states of an outgoing response.  Modelled from the spec:
the external `./outgoing_response` module exposes
`OutgoingResponse.States` with at least `Initial` and later states. -/
inductive ResState where
  | Initial
  | Started
  | Done
deriving DecidableEq, Repr

/-- An outgoing response object as this core sees it: its lifecycle
state plus a `uid` modelling JS object identity. -/
structure OutgoingResponse where
  uid : Nat
  state : ResState
deriving DecidableEq, Repr

/-- Function `buildResponse` (lines 302–313): given the current `op.res` (`none`
models no response yet) and the fresh response the external builder
would return, either throws `ResponseAlreadyStarted` — only when a
response exists AND its state has left `Initial` — or assigns and
returns the fresh response. -/
def buildResponse (cur : Option OutgoingResponse) (fresh : OutgoingResponse) :
    Except Err OutgoingResponse :=
  match cur with
  | some r =>
      if r.state ≠ ResState.Initial then
        Except.error Err.responseAlreadyStarted
      else
        Except.ok fresh
  | none => Except.ok fresh

/-! ## The timeout sweep (lines 96–174) -/

/-- Result of the `checkOutOpsForTimeout` loop: the entries kept in the
table, the number of `delete`+`pending.out--` removals performed, the
events emitted (in loop order), and whether `onReqTimeout` fired at
least once (so `lastTimeoutTime` was set to `now`). -/
structure OutSweep where
  kept : List (Int × TChannelClientOp)
  removed : Nat
  evs : List Ev
  saw : Bool
deriving Repr

/-- Loop `checkOutOpsForTimeout` (lines 131–160) on the in-range key list: an
entry already flagged `timedOut` is removed with a warning; an entry
whose age exceeds its TTL is removed and `onReqTimeout` (lines 162–174)
marks it, delivers a Timeout error carrying
`{id, start, elapsed := now - start, timeout := ttl}` to its request,
and records `lastTimeoutTime := now`; other entries stay. -/
def checkOutOpsForTimeout (now : Int) :
    List (Int × TChannelClientOp) → OutSweep
  | [] => { kept := [], removed := 0, evs := [], saw := false }
  | (id, op) :: rest =>
    let r := checkOutOpsForTimeout now rest
    if op.timedOut then
      { kept := r.kept, removed := r.removed + 1,
        evs := Ev.logWarn "lingering timed-out outgoing operation" :: r.evs,
        saw := r.saw }
    else if now - op.start > op.req.ttl then
      { kept := r.kept, removed := r.removed + 1,
        evs := Ev.reqError op.req.uid
            (Err.timeoutErr op.req.id op.start (now - op.start) op.req.ttl) :: r.evs,
        saw := true }
    else
      { kept := (id, op) :: r.kept, removed := r.removed, evs := r.evs, saw := r.saw }

/-- Loop `checkInOpsForTimeout` (lines 110–129): an entry whose age exceeds
its request's TTL is removed and `pending.in` decremented; no error is
delivered.  (The `op === undefined` skip is vacuous here: in this table
model a present key always holds a record.) -/
def checkInOpsForTimeout (now : Int) (l : List (Int × TChannelServerOp)) :
    List (Int × TChannelServerOp) :=
  l.filter (fun e => !(now - e.2.start > e.2.req.ttl : Bool))

/-- Function `onTimeoutCheck` (lines 96–108), run when the armed timer fires
(`self.timer` is stale after firing; rearming is `timer := true`):
if closing, nothing; else if `lastTimeoutTime` is truthy, emit
`timedOut` and do not rearm; else sweep the outgoing then the incoming
table and rearm. -/
def onTimeoutCheck (now : Int) (s : ConnState) : ConnState × List Ev :=
  if s.closing then (s, [])
  else if s.lastTimeoutTime ≠ 0 then (s, [Ev.timedOut])
  else
    let r := checkOutOpsForTimeout now s.outOps
    let inKept := checkInOpsForTimeout now s.inOps
    ({ s with
        outOps := r.kept,
        pendingOut := s.pendingOut - (r.removed : Int),
        inOps := inKept,
        pendingIn := s.pendingIn - ((s.inOps.length : Int) - (inKept.length : Int)),
        lastTimeoutTime := if r.saw then now else s.lastTimeoutTime,
        timer := true },
      r.evs)

/-! ## resetAll (lines 179–228) -/

/-- Function `resetAll` (lines 179–228).  `err? = none` models calling without an
argument, in which case the `unknown connection reset` fallback is
substituted.  Always clears the sweep timer first; a no-op beyond that
if already closing.  Otherwise: sets `closing`, logs at `warn`
severity (and emits the `error` notification) unless the error kind is
`tchannel.socket-closed`, in which case it logs at `info` and emits
nothing; drains the incoming table without error delivery; drains the
outgoing table delivering `err` to each request; zeroes both counters. -/
def resetAll (err? : Option Err) (s : ConnState) : ConnState × List Ev :=
  let s1 : ConnState := { s with timer := false }
  if s1.closing then (s1, [])
  else
    let err := err?.getD Err.unknownReset
    let isError : Bool := err.jsType != some "tchannel.socket-closed"
    let logEv := if isError then Ev.logWarn "resetting connection"
                 else Ev.logInfo "resetting connection"
    let notifEvs := if isError then [Ev.errorNotif err] else []
    let outEvs := s1.outOps.map (fun e => Ev.reqError e.2.req.uid err)
    ({ s1 with
        closing := true, inOps := [], outOps := [],
        pendingIn := 0, pendingOut := 0 },
      logEv :: (notifEvs ++ outEvs))

/-! ## popOutOp (lines 230–242) -/

/-- Function `popOutOp` (lines 230–242): a miss returns nothing and changes
nothing; a hit removes the entry and decrements `pending.out`. -/
def popOutOp (id : Int) (s : ConnState) : ConnState × Option TChannelClientOp :=
  match tblGet id s.outOps with
  | none => (s, none)
  | some op =>
      ({ s with outOps := tblDel id s.outOps, pendingOut := s.pendingOut - 1 },
        some op)

/-! ## connBaseRequest (lines 245–268) -/

/-- Function `connBaseRequest` (lines 245–268): stamps
`ttl := options.timeout || DEFAULT_OUTGOING_REQ_TIMEOUT` on the options,
has the external builder create a request carrying an id (`id` here —
the builder assigns it; `s.nextUid` models the fresh object identity),
registers a new `TChannelClientOp` under that id and increments
`pending.out`.  Returns the new state and the request. -/
def connBaseRequest (timeout : Option Int) (id : Int) (now : Int)
    (s : ConnState) : ConnState × OutReq :=
  let req : OutReq := { uid := s.nextUid, id := id, ttl := requestTtl timeout }
  ({ s with
      outOps := tblSet id { req := req, start := now, timedOut := false } s.outOps,
      pendingOut := s.pendingOut + 1,
      nextUid := s.nextUid + 1 },
    req)

/-! ## handleCallRequest (lines 270–328) -/

/-- Function `handleCallRequest` (lines 270–283): increments `pending.in`,
registers a fresh `TChannelServerOp` for the request under its id, and
creates the closure context (`done := false`) whose `opDone` callback
the response's `finish` / `errored` notifications will invoke. -/
def handleCallRequest (req : InReq) (now : Int) (s : ConnState) : ConnState :=
  { s with
      pendingIn := s.pendingIn + 1,
      inOps := tblSet req.id { uid := s.nextUid, req := req, start := now } s.inOps,
      ctxs := s.ctxs ++ [{ id := req.id, uid := s.nextUid, done := false }],
      nextUid := s.nextUid + 1 }

/-- Look up the closure context of the `handleCallRequest` call that
created op record `u`. -/
def findCtx (u : Nat) : List InCtx → Option InCtx
  | [] => none
  | c :: rest => if c.uid = u then some c else findCtx u rest

/-- Set the `done` flag in the closure context of op record `u`. -/
def markDone (u : Nat) : List InCtx → List InCtx
  | [] => []
  | c :: rest => if c.uid = u then { c with done := true } :: rest
                 else c :: markDone u rest

/-- Function `opDone` (lines 315–327), invoked for the operation whose record has
identity `u`: if its `done` flag is set, nothing; otherwise set `done`,
and remove the table entry and decrement `pending.in` only when the
incoming table still maps the operation's id to this exact record —
otherwise just log the mismatch. -/
def opDone (u : Nat) (s : ConnState) : ConnState × List Ev :=
  match findCtx u s.ctxs with
  | none => (s, [])
  | some c =>
    if c.done then (s, [])
    else
      let s1 : ConnState := { s with ctxs := markDone u s.ctxs }
      match tblGet c.id s.inOps with
      | some op =>
          if op.uid = u then
            ({ s1 with
                inOps := tblDel c.id s.inOps,
                pendingIn := s.pendingIn - 1 }, [])
          else (s1, [Ev.logWarn "mismatched opDone callback"])
      | none => (s1, [Ev.logWarn "mismatched opDone callback"])

/-! ## The connection as a transition system -/

/-- One state-changing operation on the connection.  A sweep can only
fire while a timer is armed, and firing consumes the timer.  Operation
ids are fresh at registration time (the claims' premise; the code keeps
a `TODO` guard for id collisions commented out). -/
inductive Step : ConnState → ConnState → Prop where
  | request : ∀ (s : ConnState) (timeout : Option Int) (id now : Int),
      tblGet id s.outOps = none →
      Step s (connBaseRequest timeout id now s).1
  | handleCall : ∀ (s : ConnState) (req : InReq) (now : Int),
      tblGet req.id s.inOps = none →
      Step s (handleCallRequest req now s)
  | popOut : ∀ (s : ConnState) (id : Int),
      Step s (popOutOp id s).1
  | sweep : ∀ (s : ConnState) (now : Int),
      s.timer = true →
      Step s (onTimeoutCheck now { s with timer := false }).1
  | finalize : ∀ (s : ConnState) (u : Nat),
      Step s (opDone u s).1
  | reset : ∀ (s : ConnState) (err? : Option Err),
      Step s (resetAll err? s).1

/-- States reachable from a fresh connection. -/
inductive Reachable : ConnState → Prop where
  | init : Reachable initConn
  | step : ∀ {s s' : ConnState}, Reachable s → Step s s' → Reachable s'

/-! ## JS-faithful sweep over tables whose slots can hold `undefined`

For the claim about sweeps meeting an already-removed (`undefined`)
entry, the tables are re-embedded with `Option`-valued slots
(`none` = the key is present but maps to `undefined`), and JS member
access on `undefined` is made explicit: reading a property of
`undefined` throws a `TypeError`, modelled by `Except.error`. -/

/-- Loop `checkInOpsForTimeout` (lines 110–129) over possibly-`undefined`
slots: the loop tests `op === undefined` FIRST and `continue`s, so an
`undefined` slot is skipped (left in place) and the scan goes on; it
never throws.  Returns the table and the number of removals. -/
def checkInOpsForTimeoutJS (now : Int) :
    List (Int × Option TChannelServerOp) →
    Except String (List (Int × Option TChannelServerOp) × Nat)
  | [] => Except.ok ([], 0)
  | (id, slot) :: rest =>
    match checkInOpsForTimeoutJS now rest with
    | Except.error e => Except.error e
    | Except.ok (kept, n) =>
      match slot with
      | none => Except.ok ((id, none) :: kept, n)
      | some op =>
        if now - op.start > op.req.ttl then Except.ok (kept, n + 1)
        else Except.ok ((id, some op) :: kept, n)

/-- Loop `checkOutOpsForTimeout` (lines 131–160) over possibly-`undefined`
slots.  The loop body reads `op.timedOut` (line 138) BEFORE the
`op === undefined` test (line 144): on an `undefined` slot that member
access throws a `TypeError`, so the dedicated skip-and-warn branch is
unreachable and the sweep aborts. -/
def checkOutOpsForTimeoutJS (now : Int) :
    List (Int × Option TChannelClientOp) →
    Except String (List (Int × Option TChannelClientOp) × Nat × List Ev)
  | [] => Except.ok ([], 0, [])
  | (_id, none) :: _rest =>
      Except.error "TypeError: Cannot read property timedOut of undefined"
  | (id, some op) :: rest =>
    match checkOutOpsForTimeoutJS now rest with
    | Except.error e => Except.error e
    | Except.ok (kept, n, evs) =>
      if op.timedOut then
        Except.ok (kept, n + 1,
          Ev.logWarn "lingering timed-out outgoing operation" :: evs)
      else if now - op.start > op.req.ttl then
        Except.ok (kept, n + 1,
          Ev.reqError op.req.uid
            (Err.timeoutErr op.req.id op.start (now - op.start) op.req.ttl) :: evs)
      else
        Except.ok ((id, some op) :: kept, n, evs)

/-! ## Basic table lemmas -/

theorem tblGet_eq_none_iff {α : Type} (id : Int) (l : List (Int × α)) :
    tblGet id l = none ↔ id ∉ tblKeys l := by
  induction l with
  | nil => simp [tblGet, tblKeys]
  | cons e rest ih =>
    obtain ⟨k, v⟩ := e
    by_cases h : k = id
    · simp only [tblGet, if_pos h, tblKeys, List.map_cons, List.mem_cons]
      subst h
      simp
    · simp [tblGet, tblKeys, h, ih]
      tauto

theorem tblGet_set_self {α : Type} (id : Int) (v : α) (l : List (Int × α)) :
    tblGet id (tblSet id v l) = some v := by
  induction l with
  | nil => simp [tblGet, tblSet]
  | cons e rest ih =>
    obtain ⟨k, w⟩ := e
    by_cases h : k = id <;> simp [tblGet, tblSet, h, ih]

theorem tblSet_eq_append {α : Type} (id : Int) (v : α) (l : List (Int × α))
    (h : tblGet id l = none) : tblSet id v l = l ++ [(id, v)] := by
  induction l with
  | nil => simp [tblSet]
  | cons e rest ih =>
    obtain ⟨k, w⟩ := e
    by_cases hk : k = id
    · simp [tblGet, hk] at h
    · simp [tblGet, hk] at h
      simp [tblSet, hk, ih h]

theorem tblDel_eq_self {α : Type} (id : Int) (l : List (Int × α))
    (h : id ∉ tblKeys l) : tblDel id l = l := by
  simp only [tblKeys] at h
  apply List.filter_eq_self.mpr
  intro e he
  have hne : e.1 ≠ id := by
    intro heq
    exact h (heq ▸ List.mem_map_of_mem Prod.fst he)
  simpa [bne_iff_ne] using hne

theorem tblDel_length {α : Type} (id : Int) (l : List (Int × α)) (v : α)
    (hnd : (tblKeys l).Nodup) (h : tblGet id l = some v) :
    (tblDel id l).length + 1 = l.length := by
  induction l with
  | nil => simp [tblGet] at h
  | cons e rest ih =>
    obtain ⟨k, w⟩ := e
    simp only [tblKeys, List.map_cons, List.nodup_cons] at hnd
    by_cases hk : k = id
    · subst hk
      have hrest : tblDel k rest = rest :=
        tblDel_eq_self k rest (by simpa [tblKeys] using hnd.1)
      have h1 : tblDel k ((k, w) :: rest) = tblDel k rest := by
        simp [tblDel]
      rw [h1, hrest]
      simp
    · simp only [tblGet, if_neg hk] at h
      have hlen := ih hnd.2 h
      have h1 : tblDel id ((k, w) :: rest) = (k, w) :: tblDel id rest := by
        simp [tblDel, hk]
      rw [h1]
      simp only [List.length_cons]
      omega

theorem tblGet_del_self {α : Type} (id : Int) (l : List (Int × α)) :
    tblGet id (tblDel id l) = none := by
  rw [tblGet_eq_none_iff]
  intro hmem
  simp only [tblKeys, tblDel, List.mem_map] at hmem
  obtain ⟨e, he, hfst⟩ := hmem
  rw [List.mem_filter] at he
  exact absurd hfst (by simpa using he.2)

theorem tblKeys_del_sublist {α : Type} (id : Int) (l : List (Int × α)) :
    (tblKeys (tblDel id l)).Sublist (tblKeys l) :=
  (List.filter_sublist l).map Prod.fst

/-! ## C9: the jitter bound -/

/-- C9 (counterexample): with base 0, fuzz width 6/5 and random draw 0
(which lies in `[0,1)`), `getTimeoutDelay` returns −1, strictly below
the claimed lower bound `base − fuzz/2 = −3/5`.  So the bound does not
hold for every fuzz width. -/
theorem getTimeoutDelay_fractional_fuzz_breaks_bound :
    (0 : Rat) ≤ 0 ∧ (0 : Rat) < 1 ∧
    getTimeoutDelay 0 (6/5) 0 < 0 - (6/5 : Rat) / 2 := by
  refine ⟨le_refl 0, by norm_num, ?_⟩
  have h1 : jsFloor (0 * (6/5 : Rat)) = 0 := by
    simp [jsFloor]
  have h2 : jsRound (((0 : Int) : Rat) - (6/5 : Rat) / 2) = -1 := by
    unfold jsRound
    rw [show ((0 : Int) : Rat) - (6/5 : Rat) / 2 + 1/2 = -1/10 by norm_num]
    rw [Int.floor_eq_iff]
    constructor <;> norm_num
  unfold getTimeoutDelay
  rw [h1, h2]
  norm_num

/-- C9 (amended): for every base, every fuzz width that is a natural
number (as the configured jitter widths are), and every random draw in
`[0,1)`, the computed sweep delay lies in
`[base − fuzz/2, base + fuzz/2]`. -/
theorem getTimeoutDelay_integer_fuzz_bound (base : Rat) (n : Nat) (r : Rat)
    (h0 : 0 ≤ r) (h1 : r < 1) :
    base - (n : Rat) / 2 ≤ getTimeoutDelay base (n : Rat) r ∧
    getTimeoutDelay base (n : Rat) r ≤ base + (n : Rat) / 2 := by
  unfold getTimeoutDelay jsRound jsFloor
  set k : Int := ⌊r * (n : Rat)⌋ with hk
  set j : Int := ⌊(k : Rat) - (n : Rat) / 2 + 1 / 2⌋ with hj
  have hn0 : (0 : Rat) ≤ (n : Rat) := Nat.cast_nonneg n
  have hk0 : 0 ≤ k := Int.floor_nonneg.mpr (mul_nonneg h0 hn0)
  have hk0' : (0 : Rat) ≤ (k : Rat) := by exact_mod_cast hk0
  have hjle : (j : Rat) ≤ (k : Rat) - (n : Rat) / 2 + 1 / 2 :=
    Int.floor_le _
  have hjgt : (k : Rat) - (n : Rat) / 2 + 1 / 2 - 1 < (j : Rat) :=
    Int.sub_one_lt_floor _
  constructor
  · have h2j : (-(n : Rat) - 1) < 2 * (j : Rat) := by linarith
    have h2j' : -(n : Int) - 1 < 2 * j := by exact_mod_cast h2j
    have h2j'' : -(n : Int) ≤ 2 * j := by omega
    have : -(n : Rat) ≤ 2 * (j : Rat) := by exact_mod_cast h2j''
    linarith
  · rcases Nat.eq_zero_or_pos n with hn | hn
    · subst hn
      have hkz : k = 0 := by simp [hk]
      have hjz : j = 0 := by
        rw [hj, hkz]
        norm_num
      rw [hjz]
      simp
    · have hnpos : (0 : Rat) < (n : Rat) := by exact_mod_cast hn
      have hrn : r * (n : Rat) < (n : Rat) := by nlinarith
      have hkn : k < (n : Int) := Int.floor_lt.mpr (by exact_mod_cast hrn)
      have hkn' : (k : Rat) ≤ (n : Rat) - 1 := by
        have : k ≤ (n : Int) - 1 := by omega
        exact_mod_cast this
      linarith

/-- C9 (witness): the amended bound holds at base 100, fuzz 3, draw 1/2. -/
theorem getTimeoutDelay_integer_fuzz_bound_witness :
    (0 : Rat) ≤ 1/2 ∧ (1/2 : Rat) < 1 ∧
    (100 - ((3 : Nat) : Rat) / 2 ≤ getTimeoutDelay 100 ((3 : Nat) : Rat) (1/2) ∧
      getTimeoutDelay 100 ((3 : Nat) : Rat) (1/2) ≤ 100 + ((3 : Nat) : Rat) / 2) :=
  ⟨by norm_num, by norm_num,
    getTimeoutDelay_integer_fuzz_bound 100 3 (1/2) (by norm_num) (by norm_num)⟩

/-! ## C10: the outgoing TTL default -/

/-- C10: the outgoing operation registered by `connBaseRequest` carries
`ttl = options.timeout` whenever that value is truthy (nonzero), and the
default 2000 when `options.timeout` is absent; an explicit timeout of 0
is falsy in `options.timeout || DEFAULT_OUTGOING_REQ_TIMEOUT`, so it
also yields 2000, not 0. -/
theorem connBaseRequest_ttl_default (s : ConnState) (id now t : Int)
    (ht : t ≠ 0) :
    ((connBaseRequest (some t) id now s).2.ttl = t ∧
      tblGet id (connBaseRequest (some t) id now s).1.outOps =
        some { req := (connBaseRequest (some t) id now s).2, start := now,
               timedOut := false }) ∧
    (connBaseRequest (some 0) id now s).2.ttl = 2000 ∧
    (connBaseRequest none id now s).2.ttl = 2000 := by
  refine ⟨⟨?_, ?_⟩, ?_, ?_⟩
  · simp [connBaseRequest, requestTtl, ht]
  · simp [connBaseRequest, tblGet_set_self]
  · simp [connBaseRequest, requestTtl, DEFAULT_OUTGOING_REQ_TIMEOUT]
  · simp [connBaseRequest, requestTtl, DEFAULT_OUTGOING_REQ_TIMEOUT]

/-- C10 (witness): instantiated at timeout 50, id 1, now 0, on a fresh
connection. -/
theorem connBaseRequest_ttl_default_witness :
    (50 : Int) ≠ 0 ∧
    (((connBaseRequest (some 50) 1 0 initConn).2.ttl = 50 ∧
      tblGet 1 (connBaseRequest (some 50) 1 0 initConn).1.outOps =
        some { req := (connBaseRequest (some 50) 1 0 initConn).2, start := 0,
               timedOut := false }) ∧
    (connBaseRequest (some 0) 1 0 initConn).2.ttl = 2000 ∧
    (connBaseRequest none 1 0 initConn).2.ttl = 2000) :=
  ⟨by decide, connBaseRequest_ttl_default initConn 1 0 50 (by decide)⟩

/-! ## C7: the buildResponse guard -/

/-- C7 (counterexample): a second `buildResponse` call made while the
first response is still in the `Initial` state does NOT raise
Response-Already-Started — it succeeds and returns a second, distinct
response object. -/
theorem buildResponse_second_call_while_initial_succeeds :
    buildResponse (some { uid := 0, state := ResState.Initial })
        { uid := 1, state := ResState.Initial } =
      Except.ok { uid := 1, state := ResState.Initial } ∧
    ({ uid := 0, state := ResState.Initial } : OutgoingResponse) ≠
      { uid := 1, state := ResState.Initial } := by
  exact ⟨rfl, by decide⟩

/-- C7 (amended): a second `buildResponse` call raises
Response-Already-Started exactly when the existing response's state has
left `Initial`; while the existing response is still `Initial`, the
second call succeeds and replaces the response object. -/
theorem buildResponse_state_guard (r fresh : OutgoingResponse) :
    (r.state ≠ ResState.Initial →
      buildResponse (some r) fresh = Except.error Err.responseAlreadyStarted) ∧
    (r.state = ResState.Initial →
      buildResponse (some r) fresh = Except.ok fresh) := by
  constructor <;> intro h <;> simp [buildResponse, h]

/-- C7 (witness): the guard fires on a `Started` response and passes on
an `Initial` one. -/
theorem buildResponse_state_guard_witness :
    (ResState.Started ≠ ResState.Initial ∧
      buildResponse (some { uid := 0, state := ResState.Started })
          { uid := 1, state := ResState.Initial } =
        Except.error Err.responseAlreadyStarted) ∧
    (ResState.Initial = ResState.Initial ∧
      buildResponse (some { uid := 0, state := ResState.Initial })
          { uid := 1, state := ResState.Initial } =
        Except.ok { uid := 1, state := ResState.Initial }) :=
  ⟨⟨by decide, (buildResponse_state_guard _ _).1 (by decide)⟩,
    ⟨rfl, (buildResponse_state_guard _ _).2 rfl⟩⟩

/-! ## C8: sweeps meeting an `undefined` slot -/

/-- C8 (the code at the failing input): on a table whose slot for key 1
holds `undefined`, the outgoing sweep `checkOutOpsForTimeout` reads
`op.timedOut` (line 138) before its `op === undefined` guard
(line 144) and therefore throws a `TypeError` and aborts the scan — its
own skip-and-warn guard is unreachable — while the incoming sweep
`checkInOpsForTimeout` tests `op === undefined` first and skips the
entry without throwing, as the spec requires of both. -/
theorem checkOutOpsForTimeoutJS_throws_on_undefined_slot :
    checkOutOpsForTimeoutJS 0 [((1 : Int), (none : Option TChannelClientOp))] =
      Except.error "TypeError: Cannot read property timedOut of undefined" ∧
    checkInOpsForTimeoutJS 0 [((1 : Int), (none : Option TChannelServerOp))] =
      Except.ok ([(1, none)], 0) :=
  ⟨rfl, rfl⟩

/-! ## resetAll lemmas -/

theorem timer_clear_eq_self (s : ConnState) (h : s.timer = false) :
    { s with timer := false } = s := by
  cases s
  simp_all

theorem resetAll_of_closing (s : ConnState) (err? : Option Err)
    (h : s.closing = true) :
    resetAll err? s = ({ s with timer := false }, []) := by
  unfold resetAll
  simp [h]

theorem resetAll_closing (s : ConnState) (err? : Option Err) :
    (resetAll err? s).1.closing = true := by
  unfold resetAll
  by_cases hc : s.closing <;> simp [hc]

theorem resetAll_timer (s : ConnState) (err? : Option Err) :
    (resetAll err? s).1.timer = false := by
  unfold resetAll
  by_cases hc : s.closing <;> simp [hc]

/-! ## C3: resetAll is idempotent -/

/-- C3: calling `resetAll(err)` twice in succession has the observable
effect of calling it once — the second call returns the state unchanged
and emits nothing; and on any state that is already closing, `resetAll`
leaves the tables, counters, `closing` flag and `lastTimeoutTime`
untouched and emits no notification and no request error. -/
theorem resetAll_idempotent (s s2 : ConnState) (err? err2? : Option Err)
    (h2 : s2.closing = true) :
    resetAll err? (resetAll err? s).1 = ((resetAll err? s).1, []) ∧
    ((resetAll err2? s2).1.inOps = s2.inOps ∧
      (resetAll err2? s2).1.outOps = s2.outOps ∧
      (resetAll err2? s2).1.pendingIn = s2.pendingIn ∧
      (resetAll err2? s2).1.pendingOut = s2.pendingOut ∧
      (resetAll err2? s2).1.closing = s2.closing ∧
      (resetAll err2? s2).1.lastTimeoutTime = s2.lastTimeoutTime ∧
      (resetAll err2? s2).2 = []) := by
  constructor
  · rw [resetAll_of_closing _ err? (resetAll_closing s err?),
      timer_clear_eq_self _ (resetAll_timer s err?)]
  · rw [resetAll_of_closing s2 err2? h2]
    simp [h2]

/-- C3 (witness): instantiated on a fresh connection and on an
already-closing connection. -/
theorem resetAll_idempotent_witness :
    ({ initConn with closing := true } : ConnState).closing = true ∧
    (resetAll (some Err.unknownReset)
        (resetAll (some Err.unknownReset) initConn).1 =
      ((resetAll (some Err.unknownReset) initConn).1, []) ∧
    ((resetAll none { initConn with closing := true }).1.inOps =
        ({ initConn with closing := true } : ConnState).inOps ∧
      (resetAll none { initConn with closing := true }).1.outOps =
        ({ initConn with closing := true } : ConnState).outOps ∧
      (resetAll none { initConn with closing := true }).1.pendingIn =
        ({ initConn with closing := true } : ConnState).pendingIn ∧
      (resetAll none { initConn with closing := true }).1.pendingOut =
        ({ initConn with closing := true } : ConnState).pendingOut ∧
      (resetAll none { initConn with closing := true }).1.closing =
        ({ initConn with closing := true } : ConnState).closing ∧
      (resetAll none { initConn with closing := true }).1.lastTimeoutTime =
        ({ initConn with closing := true } : ConnState).lastTimeoutTime ∧
      (resetAll none { initConn with closing := true }).2 = [])) :=
  ⟨rfl, resetAll_idempotent initConn { initConn with closing := true }
    (some Err.unknownReset) none rfl⟩

/-! ## C5: error classification on the first reset -/

/-- C5: on a first `resetAll`: a socket-closed error is logged at info
severity and no `error` notification is emitted; any error whose kind is
not `tchannel.socket-closed` — including the `unknown connection reset`
fallback substituted when no error is passed — is logged at warn
severity and exactly one `error` notification carrying it is emitted. -/
theorem resetAll_error_classification (s1 s2 s3 : ConnState) (reason : String)
    (err : Err)
    (h1 : s1.closing = false) (h2 : s2.closing = false) (h3 : s3.closing = false)
    (herr : err.jsType ≠ some "tchannel.socket-closed") :
    ((resetAll (some (Err.socketClosed reason)) s1).2 =
        Ev.logInfo "resetting connection" ::
          s1.outOps.map (fun e => Ev.reqError e.2.req.uid (Err.socketClosed reason)) ∧
      ∀ e : Err, Ev.errorNotif e ∉ (resetAll (some (Err.socketClosed reason)) s1).2) ∧
    ((resetAll (some err) s2).2 =
        Ev.logWarn "resetting connection" :: Ev.errorNotif err ::
          s2.outOps.map (fun e => Ev.reqError e.2.req.uid err) ∧
      (resetAll (some err) s2).2.count (Ev.errorNotif err) = 1) ∧
    ((resetAll none s3).2 =
        Ev.logWarn "resetting connection" :: Ev.errorNotif Err.unknownReset ::
          s3.outOps.map (fun e => Ev.reqError e.2.req.uid Err.unknownReset) ∧
      (resetAll none s3).2.count (Ev.errorNotif Err.unknownReset) = 1) := by
  have hmapcount : ∀ (l : List (Int × TChannelClientOp)) (e e' : Err),
      (l.map (fun q => Ev.reqError q.2.req.uid e)).count (Ev.errorNotif e') = 0 := by
    intro l e e'
    rw [List.count_eq_zero]
    intro hmem
    rw [List.mem_map] at hmem
    obtain ⟨q, _, habs⟩ := hmem
    exact Ev.noConfusion habs
  refine ⟨⟨?_, ?_⟩, ⟨?_, ?_⟩, ?_, ?_⟩
  · have hb : ((Err.socketClosed reason).jsType !=
        some "tchannel.socket-closed") = false := by
      simp [Err.jsType]
    unfold resetAll
    simp [h1, hb]
  · intro e hmem
    have hb : ((Err.socketClosed reason).jsType !=
        some "tchannel.socket-closed") = false := by
      simp [Err.jsType]
    unfold resetAll at hmem
    simp [h1, hb] at hmem
  · have hb : (err.jsType != some "tchannel.socket-closed") = true :=
      bne_iff_ne.mpr herr
    unfold resetAll
    simp [h2, hb]
  · have hb : (err.jsType != some "tchannel.socket-closed") = true :=
      bne_iff_ne.mpr herr
    unfold resetAll
    simp [h2, hb, herr, List.count_cons, hmapcount s2.outOps err err]
  · unfold resetAll
    simp [h3, Err.jsType]
  · unfold resetAll
    simp [h3, Err.jsType, List.count_cons,
      hmapcount s3.outOps Err.unknownReset Err.unknownReset]

/-- C5 (witness): instantiated on fresh connections, with the
non-socket-closed error being a Timeout error. -/
theorem resetAll_error_classification_witness :
    initConn.closing = false ∧
    (Err.timeoutErr 1 0 60 50).jsType ≠ some "tchannel.socket-closed" ∧
    (((resetAll (some (Err.socketClosed "local close")) initConn).2 =
        Ev.logInfo "resetting connection" ::
          initConn.outOps.map
            (fun e => Ev.reqError e.2.req.uid (Err.socketClosed "local close")) ∧
      ∀ e : Err, Ev.errorNotif e ∉
        (resetAll (some (Err.socketClosed "local close")) initConn).2) ∧
    ((resetAll (some (Err.timeoutErr 1 0 60 50)) initConn).2 =
        Ev.logWarn "resetting connection" ::
          Ev.errorNotif (Err.timeoutErr 1 0 60 50) ::
          initConn.outOps.map
            (fun e => Ev.reqError e.2.req.uid (Err.timeoutErr 1 0 60 50)) ∧
      (resetAll (some (Err.timeoutErr 1 0 60 50)) initConn).2.count
          (Ev.errorNotif (Err.timeoutErr 1 0 60 50)) = 1) ∧
    ((resetAll none initConn).2 =
        Ev.logWarn "resetting connection" :: Ev.errorNotif Err.unknownReset ::
          initConn.outOps.map
            (fun e => Ev.reqError e.2.req.uid Err.unknownReset) ∧
      (resetAll none initConn).2.count (Ev.errorNotif Err.unknownReset) = 1)) :=
  ⟨rfl, by decide,
    resetAll_error_classification initConn initConn initConn "local close"
      (Err.timeoutErr 1 0 60 50) rfl rfl rfl (by decide)⟩

/-! ## C4: the first reset drains both tables -/

theorem resetAll_evs_shape (s : ConnState) (err : Err) (h : s.closing = false) :
    ∃ pre : List Ev,
      (resetAll (some err) s).2 =
        pre ++ s.outOps.map (fun q => Ev.reqError q.2.req.uid err) ∧
      ∀ (u : Nat) (er : Err), Ev.reqError u er ∉ pre := by
  cases hb : (err.jsType != some "tchannel.socket-closed") with
  | true =>
    refine ⟨[Ev.logWarn "resetting connection", Ev.errorNotif err], ?_, ?_⟩
    · unfold resetAll
      simp [h, hb]
    · intro u er
      simp
  | false =>
    refine ⟨[Ev.logInfo "resetting connection"], ?_, ?_⟩
    · unfold resetAll
      simp [h, hb]
    · intro u er
      simp

/-- C4: on the first `resetAll(err)` call, the outgoing table is drained
with `err` delivered to each pending request's error channel exactly
once, the incoming table is drained with no error delivered to its
requests, both tables end empty and both pending counters end at 0.
(The `Nodup` hypothesis is the distinctness of the request objects held
by the table's entries, and the uid-disjointness hypothesis is the
distinctness of incoming request objects from outgoing ones.) -/
theorem resetAll_drains (s : ConnState) (err : Err)
    (hclosing : s.closing = false)
    (hnodup : (s.outOps.map (fun e => e.2.req.uid)).Nodup) :
    (resetAll (some err) s).1.outOps = [] ∧
    (resetAll (some err) s).1.inOps = [] ∧
    (resetAll (some err) s).1.pendingIn = 0 ∧
    (resetAll (some err) s).1.pendingOut = 0 ∧
    (∀ e ∈ s.outOps,
      (resetAll (some err) s).2.count (Ev.reqError e.2.req.uid err) = 1) ∧
    (∀ e ∈ s.inOps, (∀ q ∈ s.outOps, e.2.req.uid ≠ q.2.req.uid) →
      ∀ er : Err, Ev.reqError e.2.req.uid er ∉ (resetAll (some err) s).2) := by
  obtain ⟨pre, hevs, hpre⟩ := resetAll_evs_shape s err hclosing
  refine ⟨?_, ?_, ?_, ?_, ?_, ?_⟩
  · unfold resetAll
    simp [hclosing]
  · unfold resetAll
    simp [hclosing]
  · unfold resetAll
    simp [hclosing]
  · unfold resetAll
    simp [hclosing]
  · intro e he
    rw [hevs, List.count_append]
    have hpre0 : pre.count (Ev.reqError e.2.req.uid err) = 0 :=
      List.count_eq_zero.mpr (hpre _ _)
    have hmm : s.outOps.map (fun q => Ev.reqError q.2.req.uid err) =
        (s.outOps.map (fun q => q.2.req.uid)).map (fun u => Ev.reqError u err) := by
      rw [List.map_map]
      rfl
    have hinj : Function.Injective (fun u => Ev.reqError u err) := by
      intro a b hab
      injection hab
    rw [hpre0, hmm]
    rw [show Ev.reqError e.2.req.uid err =
        (fun u => Ev.reqError u err) e.2.req.uid from rfl]
    rw [List.count_map_of_injective _ _ hinj]
    have := List.count_eq_one_of_mem hnodup (List.mem_map_of_mem _ he)
    omega
  · intro e he hne er hmem
    rw [hevs, List.mem_append] at hmem
    rcases hmem with hm | hm
    · exact hpre _ _ hm
    · rw [List.mem_map] at hm
      obtain ⟨q, hq, heq⟩ := hm
      injection heq with h1 h2
      exact hne q hq h1.symm

/-- An example connection state with two pending outgoing operations
(request uids 10 and 20) and one pending incoming operation (request
uid 31). -/
def drainExampleState : ConnState :=
  { inOps := [(3, { uid := 30, req := { uid := 31, id := 3, ttl := 100 },
                    start := 0 })],
    outOps := [(1, { req := { uid := 10, id := 1, ttl := 50 }, start := 0,
                     timedOut := false }),
               (2, { req := { uid := 20, id := 2, ttl := 50 }, start := 0,
                     timedOut := false })],
    pendingIn := 1, pendingOut := 2, lastTimeoutTime := 0, closing := false,
    timer := true, ctxs := [], nextUid := 40 }

/-- C4 (witness): resetting `drainExampleState` with a socket-closed
error delivers it exactly once to each of the two outgoing requests,
delivers nothing to the incoming request, and zeroes both tables and
counters. -/
theorem resetAll_drains_witness :
    drainExampleState.closing = false ∧
    (drainExampleState.outOps.map (fun e => e.2.req.uid)).Nodup ∧
    ((resetAll (some (Err.socketClosed "socket closed")) drainExampleState).1.outOps
        = [] ∧
      (resetAll (some (Err.socketClosed "socket closed")) drainExampleState).1.inOps
        = [] ∧
      (resetAll (some (Err.socketClosed "socket closed"))
          drainExampleState).1.pendingIn = 0 ∧
      (resetAll (some (Err.socketClosed "socket closed"))
          drainExampleState).1.pendingOut = 0 ∧
      (resetAll (some (Err.socketClosed "socket closed")) drainExampleState).2.count
          (Ev.reqError 10 (Err.socketClosed "socket closed")) = 1 ∧
      (resetAll (some (Err.socketClosed "socket closed")) drainExampleState).2.count
          (Ev.reqError 20 (Err.socketClosed "socket closed")) = 1 ∧
      Ev.reqError 31 (Err.socketClosed "socket closed") ∉
        (resetAll (some (Err.socketClosed "socket closed")) drainExampleState).2) := by
  have T := resetAll_drains drainExampleState (Err.socketClosed "socket closed")
    rfl (by decide)
  refine ⟨rfl, by decide, T.1, T.2.1, T.2.2.1, T.2.2.2.1, ?_, ?_, ?_⟩
  · exact T.2.2.2.2.1
      (1, { req := { uid := 10, id := 1, ttl := 50 }, start := 0,
            timedOut := false }) (by decide)
  · exact T.2.2.2.2.1
      (2, { req := { uid := 20, id := 2, ttl := 50 }, start := 0,
            timedOut := false }) (by decide)
  · exact T.2.2.2.2.2
      (3, { uid := 30, req := { uid := 31, id := 3, ttl := 100 }, start := 0 })
      (by decide) (by decide) (Err.socketClosed "socket closed")

/-! ## C6: opDone runs at most once per incoming operation -/

theorem findCtx_markDone (u : Nat) (l : List InCtx) (c : InCtx)
    (h : findCtx u l = some c) :
    findCtx u (markDone u l) = some { c with done := true } := by
  induction l with
  | nil => simp [findCtx] at h
  | cons d rest ih =>
    by_cases hd : d.uid = u
    · simp only [findCtx, if_pos hd] at h
      cases h
      simp [markDone, findCtx, hd]
    · simp only [findCtx, if_neg hd] at h
      simp [markDone, findCtx, hd, ih h]

theorem opDone_opDone (s : ConnState) (u : Nat) :
    opDone u (opDone u s).1 = ((opDone u s).1, []) := by
  unfold opDone
  cases hf : findCtx u s.ctxs with
  | none => simp [opDone, hf]
  | some c =>
    by_cases hd : c.done
    · simp [opDone, hf, hd]
    · have hf2 : findCtx u (markDone u s.ctxs) = some { c with done := true } :=
        findCtx_markDone u s.ctxs c hf
      cases hg : tblGet c.id s.inOps with
      | none => simp [opDone, hf, hd, hg, hf2]
      | some op =>
        by_cases hu : op.uid = u
        · simp [opDone, hf, hd, hg, hu, hf2]
        · simp [opDone, hf, hd, hg, hu, hf2]

/-- C6: the finalize procedure of an incoming operation runs at most
once — a second invocation (after any first one) is a complete no-op —
and an invocation that finds the incoming table no longer mapping the
operation's id to this exact record removes nothing and decrements
nothing, producing only the mismatch warning log. -/
theorem opDone_at_most_once (s s2 : ConnState) (u u2 : Nat) (c2 : InCtx)
    (hf : findCtx u2 s2.ctxs = some c2) (hd : c2.done = false)
    (hmis : ∀ op : TChannelServerOp, tblGet c2.id s2.inOps = some op →
      op.uid ≠ u2) :
    opDone u (opDone u s).1 = ((opDone u s).1, []) ∧
    ((opDone u2 s2).1.inOps = s2.inOps ∧
      (opDone u2 s2).1.pendingIn = s2.pendingIn ∧
      (opDone u2 s2).2 = [Ev.logWarn "mismatched opDone callback"]) := by
  refine ⟨opDone_opDone s u, ?_⟩
  unfold opDone
  rw [hf]
  simp only [hd, Bool.false_eq_true, if_false]
  cases hg : tblGet c2.id s2.inOps with
  | none => simp
  | some op =>
    have := hmis op hg
    simp [this]

/-- C6 (witness): instantiated on a state whose context for op record 7
is not yet done while the incoming table no longer holds that record. -/
theorem opDone_at_most_once_witness :
    findCtx 7 ({ initConn with ctxs := [{ id := 5, uid := 7, done := false }]
      } : ConnState).ctxs = some { id := 5, uid := 7, done := false } ∧
    ({ id := 5, uid := 7, done := false } : InCtx).done = false ∧
    (opDone 7 (opDone 7 initConn).1 = ((opDone 7 initConn).1, []) ∧
      ((opDone 7 { initConn with
          ctxs := [{ id := 5, uid := 7, done := false }] }).1.inOps =
        ({ initConn with
          ctxs := [{ id := 5, uid := 7, done := false }] } : ConnState).inOps ∧
      (opDone 7 { initConn with
          ctxs := [{ id := 5, uid := 7, done := false }] }).1.pendingIn =
        ({ initConn with
          ctxs := [{ id := 5, uid := 7, done := false }] } : ConnState).pendingIn ∧
      (opDone 7 { initConn with
          ctxs := [{ id := 5, uid := 7, done := false }] }).2 =
        [Ev.logWarn "mismatched opDone callback"])) :=
  ⟨rfl, rfl,
    opDone_at_most_once initConn
      { initConn with ctxs := [{ id := 5, uid := 7, done := false }] } 7 7
      { id := 5, uid := 7, done := false } rfl rfl
      (fun op h => by simp [initConn, tblGet] at h)⟩

/-! ## Sweep lemmas -/

theorem checkOut_cons_timedOut (now : Int) (k : Int) (op : TChannelClientOp)
    (rest : List (Int × TChannelClientOp)) (ht : op.timedOut = true) :
    checkOutOpsForTimeout now ((k, op) :: rest) =
      { kept := (checkOutOpsForTimeout now rest).kept,
        removed := (checkOutOpsForTimeout now rest).removed + 1,
        evs := Ev.logWarn "lingering timed-out outgoing operation" ::
          (checkOutOpsForTimeout now rest).evs,
        saw := (checkOutOpsForTimeout now rest).saw } := by
  simp [checkOutOpsForTimeout, ht]

theorem checkOut_cons_expired (now : Int) (k : Int) (op : TChannelClientOp)
    (rest : List (Int × TChannelClientOp)) (ht : op.timedOut = false)
    (hx : now - op.start > op.req.ttl) :
    checkOutOpsForTimeout now ((k, op) :: rest) =
      { kept := (checkOutOpsForTimeout now rest).kept,
        removed := (checkOutOpsForTimeout now rest).removed + 1,
        evs := Ev.reqError op.req.uid
            (Err.timeoutErr op.req.id op.start (now - op.start) op.req.ttl) ::
          (checkOutOpsForTimeout now rest).evs,
        saw := true } := by
  simp [checkOutOpsForTimeout, ht, hx]

theorem checkOut_cons_live (now : Int) (k : Int) (op : TChannelClientOp)
    (rest : List (Int × TChannelClientOp)) (ht : op.timedOut = false)
    (hx : ¬(now - op.start > op.req.ttl)) :
    checkOutOpsForTimeout now ((k, op) :: rest) =
      { kept := (k, op) :: (checkOutOpsForTimeout now rest).kept,
        removed := (checkOutOpsForTimeout now rest).removed,
        evs := (checkOutOpsForTimeout now rest).evs,
        saw := (checkOutOpsForTimeout now rest).saw } := by
  simp [checkOutOpsForTimeout, ht, hx]

theorem checkOut_length (now : Int) (l : List (Int × TChannelClientOp)) :
    (checkOutOpsForTimeout now l).kept.length +
      (checkOutOpsForTimeout now l).removed = l.length := by
  induction l with
  | nil => simp [checkOutOpsForTimeout]
  | cons e rest ih =>
    obtain ⟨k, op⟩ := e
    rcases Bool.eq_false_or_eq_true op.timedOut with ht | ht
    · rw [checkOut_cons_timedOut now k op rest ht]
      simp only [List.length_cons]
      omega
    · by_cases hx : now - op.start > op.req.ttl
      · rw [checkOut_cons_expired now k op rest ht hx]
        simp only [List.length_cons]
        omega
      · rw [checkOut_cons_live now k op rest ht hx]
        simp only [List.length_cons]
        omega

theorem checkOut_kept_sublist (now : Int) (l : List (Int × TChannelClientOp)) :
    (checkOutOpsForTimeout now l).kept.Sublist l := by
  induction l with
  | nil => simp [checkOutOpsForTimeout]
  | cons e rest ih =>
    obtain ⟨k, op⟩ := e
    rcases Bool.eq_false_or_eq_true op.timedOut with ht | ht
    · rw [checkOut_cons_timedOut now k op rest ht]
      exact ih.trans (List.sublist_cons_self _ _)
    · by_cases hx : now - op.start > op.req.ttl
      · rw [checkOut_cons_expired now k op rest ht hx]
        exact ih.trans (List.sublist_cons_self _ _)
      · rw [checkOut_cons_live now k op rest ht hx]
        exact List.cons_sublist_cons.mpr ih

theorem checkOut_expired (now : Int) (l : List (Int × TChannelClientOp))
    (id : Int) (op : TChannelClientOp)
    (hnd : (tblKeys l).Nodup) (hget : tblGet id l = some op)
    (hto : op.timedOut = false) (hexp : now - op.start > op.req.ttl) :
    tblGet id (checkOutOpsForTimeout now l).kept = none ∧
    Ev.reqError op.req.uid
        (Err.timeoutErr op.req.id op.start (now - op.start) op.req.ttl) ∈
      (checkOutOpsForTimeout now l).evs ∧
    (checkOutOpsForTimeout now l).saw = true ∧
    1 ≤ (checkOutOpsForTimeout now l).removed := by
  induction l with
  | nil => simp [tblGet] at hget
  | cons e rest ih =>
    obtain ⟨k, w⟩ := e
    simp only [tblKeys, List.map_cons, List.nodup_cons] at hnd
    have hksub : (tblKeys (checkOutOpsForTimeout now rest).kept).Sublist
        (tblKeys rest) :=
      (checkOut_kept_sublist now rest).map Prod.fst
    by_cases hk : k = id
    · subst hk
      simp only [tblGet, if_pos rfl] at hget
      cases hget
      have hknone : tblGet k (checkOutOpsForTimeout now rest).kept = none := by
        rw [tblGet_eq_none_iff]
        intro hmem
        exact hnd.1 (hksub.mem hmem)
      rw [checkOut_cons_expired now k op rest hto hexp]
      exact ⟨hknone, List.mem_cons_self _ _, rfl, Nat.le_add_left 1 _⟩
    · simp only [tblGet, if_neg hk] at hget
      obtain ⟨ih1, ih2, ih3, ih4⟩ := ih (by simpa [tblKeys] using hnd.2) hget
      rcases Bool.eq_false_or_eq_true w.timedOut with ht | ht
      · rw [checkOut_cons_timedOut now k w rest ht]
        exact ⟨ih1, List.mem_cons_of_mem _ ih2, ih3, Nat.le_add_left 1 _⟩
      · by_cases hx : now - w.start > w.req.ttl
        · rw [checkOut_cons_expired now k w rest ht hx]
          exact ⟨ih1, List.mem_cons_of_mem _ ih2, rfl, Nat.le_add_left 1 _⟩
        · rw [checkOut_cons_live now k w rest ht hx]
          refine ⟨?_, ih2, ih3, ih4⟩
          simp only [tblGet, if_neg hk]
          exact ih1

/-! ## C2: two-strike escalation -/

/-- C2: a sweep that fires while the connection is not closing and
`lastTimeoutTime` is 0, finding an outgoing operation whose age exceeds
its TTL, removes that operation, decrements `pending.out`, delivers a
Timeout error carrying the elapsed time and the configured timeout to
the operation's request, records `lastTimeoutTime := now`, and rearms
the timer; the next sweep thereafter (connection still not closing, no
reset in between) emits the `timedOut` notification, changes nothing
else, and does not rearm; and a sweep that fires while the connection
is closing does nothing and does not rearm. -/
theorem two_strike_escalation (s sc : ConnState) (now1 now2 now3 : Int)
    (id : Int) (op : TChannelClientOp)
    (h1 : s.closing = false) (h2 : s.lastTimeoutTime = 0)
    (h3 : (tblKeys s.outOps).Nodup)
    (h4 : tblGet id s.outOps = some op) (h5 : op.timedOut = false)
    (h6 : now1 - op.start > op.req.ttl) (h7 : 0 < now1)
    (hc : sc.closing = true) :
    tblGet id (onTimeoutCheck now1 { s with timer := false }).1.outOps = none ∧
    (onTimeoutCheck now1 { s with timer := false }).1.pendingOut <
      s.pendingOut ∧
    Ev.reqError op.req.uid
        (Err.timeoutErr op.req.id op.start (now1 - op.start) op.req.ttl) ∈
      (onTimeoutCheck now1 { s with timer := false }).2 ∧
    (onTimeoutCheck now1 { s with timer := false }).1.lastTimeoutTime = now1 ∧
    (onTimeoutCheck now1 { s with timer := false }).1.timer = true ∧
    onTimeoutCheck now2
        { (onTimeoutCheck now1 { s with timer := false }).1 with
          timer := false } =
      ({ (onTimeoutCheck now1 { s with timer := false }).1 with
          timer := false }, [Ev.timedOut]) ∧
    onTimeoutCheck now3 { sc with timer := false } =
      ({ sc with timer := false }, []) := by
  obtain ⟨hE1, hE2, hE3, hE4⟩ := checkOut_expired now1 s.outOps id op h3 h4 h5 h6
  have hstep : onTimeoutCheck now1 { s with timer := false } =
      ({ s with
          timer := true,
          outOps := (checkOutOpsForTimeout now1 s.outOps).kept,
          pendingOut := s.pendingOut -
            ((checkOutOpsForTimeout now1 s.outOps).removed : Int),
          inOps := checkInOpsForTimeout now1 s.inOps,
          pendingIn := s.pendingIn - ((s.inOps.length : Int) -
            ((checkInOpsForTimeout now1 s.inOps).length : Int)),
          lastTimeoutTime := now1 },
        (checkOutOpsForTimeout now1 s.outOps).evs) := by
    unfold onTimeoutCheck
    simp [h1, h2, hE3]
  refine ⟨?_, ?_, ?_, ?_, ?_, ?_, ?_⟩
  · rw [hstep]
    exact hE1
  · rw [hstep]
    have hcast : (1 : Int) ≤ ((checkOutOpsForTimeout now1 s.outOps).removed : Int) := by
      exact_mod_cast hE4
    simp only
    omega
  · rw [hstep]
    exact hE2
  · rw [hstep]
  · rw [hstep]
  · rw [hstep]
    unfold onTimeoutCheck
    simp [h1, h7.ne']
  · unfold onTimeoutCheck
    simp [hc]

/-- An example connection state with one outgoing operation of TTL 50
registered at time 0. -/
def escalationExampleState : ConnState :=
  { inOps := [],
    outOps := [(1, { req := { uid := 0, id := 1, ttl := 50 }, start := 0,
                     timedOut := false })],
    pendingIn := 0, pendingOut := 1, lastTimeoutTime := 0, closing := false,
    timer := true, ctxs := [], nextUid := 1 }

/-- C2 (witness): on `escalationExampleState`, the sweep at time 60
times the operation out and rearms, the sweep at time 120 emits
`timedOut` without rearming, and a sweep on a closing connection does
nothing. -/
theorem two_strike_escalation_witness :
    tblGet 1 (onTimeoutCheck 60
        { escalationExampleState with timer := false }).1.outOps = none ∧
    (onTimeoutCheck 60 { escalationExampleState with
        timer := false }).1.pendingOut < escalationExampleState.pendingOut ∧
    Ev.reqError 0 (Err.timeoutErr 1 0 (60 - 0) 50) ∈
      (onTimeoutCheck 60 { escalationExampleState with timer := false }).2 ∧
    (onTimeoutCheck 60 { escalationExampleState with
        timer := false }).1.lastTimeoutTime = 60 ∧
    (onTimeoutCheck 60 { escalationExampleState with
        timer := false }).1.timer = true ∧
    onTimeoutCheck 120
        { (onTimeoutCheck 60 { escalationExampleState with
            timer := false }).1 with timer := false } =
      ({ (onTimeoutCheck 60 { escalationExampleState with
            timer := false }).1 with timer := false }, [Ev.timedOut]) ∧
    onTimeoutCheck 130 { { initConn with closing := true } with
        timer := false } =
      ({ { initConn with closing := true } with timer := false }, []) :=
  two_strike_escalation escalationExampleState { initConn with closing := true }
    60 120 130 1
    { req := { uid := 0, id := 1, ttl := 50 }, start := 0, timedOut := false }
    rfl rfl (by decide) rfl rfl (by decide) (by decide) rfl

/-! ## C1: the pending counters track the tables on every reachable state -/

theorem nodup_keys_append {α : Type} (l : List (Int × α)) (id : Int) (v : α)
    (hnd : (tblKeys l).Nodup) (hmem : id ∉ tblKeys l) :
    (tblKeys (l ++ [(id, v)])).Nodup := by
  simp only [tblKeys, List.map_append, List.map_cons, List.map_nil] at *
  rw [List.nodup_append]
  exact ⟨hnd, List.nodup_singleton _, by simpa using hmem⟩

/-- The counter–table consistency invariant, plus the key uniqueness the
JS object tables provide by construction. -/
def ConnInv (s : ConnState) : Prop :=
  s.pendingOut = (s.outOps.length : Int) ∧
  s.pendingIn = (s.inOps.length : Int) ∧
  (tblKeys s.outOps).Nodup ∧ (tblKeys s.inOps).Nodup

theorem ConnInv_init : ConnInv initConn := by
  refine ⟨rfl, rfl, ?_, ?_⟩ <;> simp [initConn, tblKeys]

theorem ConnInv_step {s s' : ConnState} (hstep : Step s s') (h : ConnInv s) :
    ConnInv s' := by
  obtain ⟨ho, hi, hno, hni⟩ := h
  cases hstep with
  | request timeout id now hfresh =>
    have happ := tblSet_eq_append id
      { req := { uid := s.nextUid, id := id, ttl := requestTtl timeout },
        start := now, timedOut := false } s.outOps hfresh
    have hmem : id ∉ tblKeys s.outOps := (tblGet_eq_none_iff id s.outOps).mp hfresh
    have hred : (connBaseRequest timeout id now s).1 =
        { s with
            outOps := s.outOps ++
              [(id, { req := { uid := s.nextUid, id := id,
                               ttl := requestTtl timeout },
                      start := now, timedOut := false })],
            pendingOut := s.pendingOut + 1,
            nextUid := s.nextUid + 1 } := by
      simp [connBaseRequest, happ]
    rw [hred]
    refine ⟨?_, hi, ?_, hni⟩
    · show s.pendingOut + 1 = ((s.outOps ++ [_]).length : Int)
      push_cast [List.length_append, List.length_cons, List.length_nil]
      omega
    · exact nodup_keys_append _ _ _ hno hmem
  | handleCall req now hfresh =>
    have happ := tblSet_eq_append req.id
      { uid := s.nextUid, req := req, start := now } s.inOps hfresh
    have hmem : req.id ∉ tblKeys s.inOps :=
      (tblGet_eq_none_iff req.id s.inOps).mp hfresh
    have hred : handleCallRequest req now s =
        { s with
            inOps := s.inOps ++
              [(req.id, { uid := s.nextUid, req := req, start := now })],
            pendingIn := s.pendingIn + 1,
            ctxs := s.ctxs ++ [{ id := req.id, uid := s.nextUid, done := false }],
            nextUid := s.nextUid + 1 } := by
      simp [handleCallRequest, happ]
    rw [hred]
    refine ⟨ho, ?_, hno, ?_⟩
    · show s.pendingIn + 1 = ((s.inOps ++ [_]).length : Int)
      push_cast [List.length_append, List.length_cons, List.length_nil]
      omega
    · exact nodup_keys_append _ _ _ hni hmem
  | popOut id =>
    cases hg : tblGet id s.outOps with
    | none =>
      have hred : (popOutOp id s).1 = s := by
        simp [popOutOp, hg]
      rw [hred]
      exact ⟨ho, hi, hno, hni⟩
    | some op =>
      have hlen := tblDel_length id s.outOps op hno hg
      have hred : (popOutOp id s).1 =
          { s with outOps := tblDel id s.outOps,
                   pendingOut := s.pendingOut - 1 } := by
        simp [popOutOp, hg]
      rw [hred]
      refine ⟨?_, hi, hno.sublist (tblKeys_del_sublist id s.outOps), hni⟩
      show s.pendingOut - 1 = ((tblDel id s.outOps).length : Int)
      omega
  | sweep now htimer =>
    by_cases hc : s.closing = true
    · have hred : (onTimeoutCheck now { s with timer := false }).1 =
          { s with timer := false } := by
        unfold onTimeoutCheck
        simp [hc]
      rw [hred]
      exact ⟨ho, hi, hno, hni⟩
    · by_cases hl : s.lastTimeoutTime = 0
      · have hklen := checkOut_length now s.outOps
        have hkin : (checkInOpsForTimeout now s.inOps).length ≤
            s.inOps.length := List.length_filter_le _ s.inOps
        have hsubo : (tblKeys (checkOutOpsForTimeout now s.outOps).kept).Sublist
            (tblKeys s.outOps) :=
          (checkOut_kept_sublist now s.outOps).map Prod.fst
        have hsubi : (tblKeys (checkInOpsForTimeout now s.inOps)).Sublist
            (tblKeys s.inOps) :=
          (List.filter_sublist s.inOps).map Prod.fst
        have hred : (onTimeoutCheck now { s with timer := false }).1 =
            { s with
                timer := true,
                outOps := (checkOutOpsForTimeout now s.outOps).kept,
                pendingOut := s.pendingOut -
                  ((checkOutOpsForTimeout now s.outOps).removed : Int),
                inOps := checkInOpsForTimeout now s.inOps,
                pendingIn := s.pendingIn - ((s.inOps.length : Int) -
                  ((checkInOpsForTimeout now s.inOps).length : Int)),
                lastTimeoutTime :=
                  if (checkOutOpsForTimeout now s.outOps).saw then now
                  else s.lastTimeoutTime } := by
          unfold onTimeoutCheck
          simp [hc, hl]
        rw [hred]
        refine ⟨?_, ?_, hno.sublist hsubo, hni.sublist hsubi⟩
        · show s.pendingOut - ((checkOutOpsForTimeout now s.outOps).removed : Int)
              = ((checkOutOpsForTimeout now s.outOps).kept.length : Int)
          omega
        · show s.pendingIn - ((s.inOps.length : Int) -
              ((checkInOpsForTimeout now s.inOps).length : Int))
              = ((checkInOpsForTimeout now s.inOps).length : Int)
          omega
      · have hred : (onTimeoutCheck now { s with timer := false }).1 =
            { s with timer := false } := by
          unfold onTimeoutCheck
          simp [hc, hl]
        rw [hred]
        exact ⟨ho, hi, hno, hni⟩
  | finalize u =>
    cases hf : findCtx u s.ctxs with
    | none =>
      have hred : (opDone u s).1 = s := by
        simp [opDone, hf]
      rw [hred]
      exact ⟨ho, hi, hno, hni⟩
    | some c =>
      by_cases hd : c.done = true
      · have hred : (opDone u s).1 = s := by
          simp [opDone, hf, hd]
        rw [hred]
        exact ⟨ho, hi, hno, hni⟩
      · cases hg : tblGet c.id s.inOps with
        | none =>
          have hred : (opDone u s).1 = { s with ctxs := markDone u s.ctxs } := by
            simp [opDone, hf, hd, hg]
          rw [hred]
          exact ⟨ho, hi, hno, hni⟩
        | some op =>
          by_cases hu : op.uid = u
          · have hlen := tblDel_length c.id s.inOps op hni hg
            have hred : (opDone u s).1 =
                { s with inOps := tblDel c.id s.inOps,
                         pendingIn := s.pendingIn - 1,
                         ctxs := markDone u s.ctxs } := by
              simp [opDone, hf, hd, hg, hu]
            rw [hred]
            refine ⟨ho, ?_, hno, hni.sublist (tblKeys_del_sublist c.id s.inOps)⟩
            show s.pendingIn - 1 = ((tblDel c.id s.inOps).length : Int)
            omega
          · have hred : (opDone u s).1 = { s with ctxs := markDone u s.ctxs } := by
              simp [opDone, hf, hd, hg, hu]
            rw [hred]
            exact ⟨ho, hi, hno, hni⟩
  | reset err? =>
    by_cases hc : s.closing = true
    · have hred : (resetAll err? s).1 = { s with timer := false } := by
        rw [resetAll_of_closing s err? hc]
      rw [hred]
      exact ⟨ho, hi, hno, hni⟩
    · have hred : (resetAll err? s).1 =
          { s with timer := false, closing := true, inOps := [], outOps := [],
                   pendingIn := 0, pendingOut := 0 } := by
        unfold resetAll
        simp [hc]
      rw [hred]
      refine ⟨rfl, rfl, ?_, ?_⟩ <;> simp [tblKeys]

theorem reachable_ConnInv (s : ConnState) (h : Reachable s) : ConnInv s := by
  induction h with
  | init => exact ConnInv_init
  | step _ hstep ih => exact ConnInv_step hstep ih

/-- C1: on every state reachable by any sequence of `request`,
`handleCallRequest`, `popOutOp`, timer-driven sweeps, incoming-operation
finalizes and `resetAll` calls (with every registered operation id fresh
at registration time), `pending.out` equals the number of entries in the
outgoing table and `pending.in` equals the number of entries in the
incoming table. -/
theorem pending_counters_match_tables (s : ConnState) (h : Reachable s) :
    s.pendingOut = (s.outOps.length : Int) ∧
    s.pendingIn = (s.inOps.length : Int) :=
  ⟨(reachable_ConnInv s h).1, (reachable_ConnInv s h).2.1⟩

/-- C1 (witness): the invariant holds on the reachable state obtained by
registering one outgoing request on a fresh connection. -/
theorem pending_counters_match_tables_witness :
    (connBaseRequest (some 50) 1 0 initConn).1.pendingOut =
      ((connBaseRequest (some 50) 1 0 initConn).1.outOps.length : Int) ∧
    (connBaseRequest (some 50) 1 0 initConn).1.pendingIn =
      ((connBaseRequest (some 50) 1 0 initConn).1.inOps.length : Int) :=
  pending_counters_match_tables _
    (Reachable.step Reachable.init (Step.request initConn (some 50) 1 0 rfl))
